import Mathlib

/-!
Verification of the zipper download-aggregation service (src/zipper.go).

The service resolves a bearer token to a manifest of S3 file descriptors
stored in redis and streams the referenced objects to the HTTP client as
one zip archive.  This file gives a shallow embedding of the repository's
handler (the `server` methods of src/zipper.go): external effects — the
redis GET, JSON decoding of the manifest, the S3 object reads, and the
HTTP response sink — are modelled as explicit function parameters and
explicit state, so that the handler becomes a total function from a
request and an environment to a structured outcome.
-/

namespace Zipper

/-- The character class of the sanitizer regexp (src/zipper.go line 65):
hash, less-than, greater-than, colon, double quote, slash, pipe,
question mark, star and backslash. -/
def excludedChars : List Char := ['#', '<', '>', ':', '"', '|', '?', '*', '/', '\\']

/-- `safeFileName.ReplaceAllString(s, "")`: the regexp is a one-character
class, so replacing every match with the empty string deletes every
occurrence of a class character, i.e. keeps exactly the characters not in
the class, in order. -/
def sanitize (s : String) : String :=
  String.mk (s.data.filter (fun c => decide (c ∉ excludedChars)))

/-- One manifest entry decoded from redis (`type redisFile`,
src/zipper.go lines 37-41). -/
structure redisFile where
  S3Path : String
  FileName : String
  Folder : String
  deriving DecidableEq

/-- Outcome of the redis `GET` round trip (`conn.Do("GET", ...)` in
`getRedisFiles`, lines 205-219): a transport error, a nil reply, a reply
that is not a byte string (the failed type assertion), or bytes. -/
inductive RedisOutcome where
  | err
  | nilReply
  | nonBytes
  | bytes (b : List Nat)
  deriving DecidableEq

/-- Outcome of `srv.bucket.GetReader(path)` (line 163): a readable
stream with its bytes, an `*s3.Error` with status 404, or any other
error. -/
inductive FetchResult where
  | ok (data : List Nat)
  | notFound
  | fetchFailed
  deriving DecidableEq

/-- The external collaborators the handler consumes: the redis GET on a
key, `json.Unmarshal` of the stored value into a descriptor list, and
the S3 reader for a storage path. -/
structure Env where
  redisGet : String → RedisOutcome
  unmarshal : List Nat → Except String (List redisFile)
  fetch : String → FetchResult

/-- `getRedisFiles` (lines 201-226): one GET on the namespaced key
`"zip:" ++ token`; a transport error, a nil reply, a failed byte
assertion and a JSON decode failure each return an error, a decoded
value returns the descriptor list. -/
def getRedisFiles (env : Env) (tkn : String) : Except String (List redisFile) :=
  match env.redisGet ("zip:" ++ tkn) with
  | .err => .error "redis unavailable"
  | .nilReply => .error "No files found"
  | .nonBytes => .error "Assertion failed"
  | .bytes b =>
    match env.unmarshal b with
    | .error e => .error e
    | .ok files => .ok files

/-- The sanitized entry file name with its fallback (lines 157-161):
`safeFileName` is the sanitized `FileName`, replaced by `"file"` when
empty. -/
def entryFileName (f : redisFile) : String :=
  let safeFileName := sanitize f.FileName
  if safeFileName = "" then "file" else safeFileName

/-- `strings.HasSuffix(s, "/")` for the one-character suffix: the last
character of `s` is `'/'`. -/
def endsWithSlash (s : String) : Bool :=
  match s.data.getLast? with
  | some c => c = '/'
  | none => false

/-- The folder portion of the zip path (lines 176-183): the stored
`Folder` value verbatim, with a `"/"` appended only when the value does
not already end with one; an empty folder contributes nothing. -/
def folderPart (d : String) : String :=
  if d = "" then "" else if endsWithSlash d then d else d ++ "/"

/-- The in-archive path of one descriptor (`zipPath`, lines 157-185):
the folder portion followed by the sanitized file name. -/
def zipPathOf (f : redisFile) : String :=
  folderPart f.Folder ++ entryFileName f

/-- One unit the zip writer hands to the response sink: a local entry
header (`zw.CreateHeader`), an entry's payload (`io.Copy`), or the
central directory written by `zw.Close()`. -/
inductive Chunk where
  | entryHeader (name : String)
  | entryData (data : List Nat)
  | centralDirectory
  deriving DecidableEq

/-- State of the zip writer's buffered underlying writer: the chunks
that reached the sink, and the latched error flag.  Per the bufio
contract the Go zip writer writes through, once a write to the sink has
failed no later write is forwarded. -/
structure WState where
  sent : List Chunk
  failed : Bool
  deriving DecidableEq

/-- The writer state at the start of a request. -/
def initW : WState := ⟨[], false⟩

/-- One write through the buffered writer.  `cap = none` models a
healthy sink; `cap = some k` models a sink that accepts `k` chunks and
then fails (e.g. the client disconnected).  A failed writer is latched
and forwards nothing further. -/
def sinkWrite (cap : Option Nat) (st : WState) (c : Chunk) : WState :=
  if st.failed then st
  else
    match cap with
    | none => ⟨st.sent ++ [c], false⟩
    | some k =>
      if st.sent.length < k then ⟨st.sent ++ [c], false⟩ else ⟨st.sent, true⟩

/-- The per-descriptor loop of the handler (lines 151-196): an empty
`S3Path` is skipped without a fetch; otherwise the object is fetched,
any fetch error is skipped, and a successful fetch writes the entry
header and the entry bytes.  The second component records every storage
path passed to `GetReader`, in order; note that the loop inspects no
write error, so it continues through the whole list regardless of the
sink's state. -/
def streamFiles (env : Env) (cap : Option Nat) :
    List redisFile → WState → WState × List String
  | [], st => (st, [])
  | f :: fs, st =>
    if f.S3Path = "" then streamFiles env cap fs st
    else
      match env.fetch f.S3Path with
      | .ok d =>
        let st2 := sinkWrite cap (sinkWrite cap st (.entryHeader (zipPathOf f))) (.entryData d)
        let r := streamFiles env cap fs st2
        (r.1, f.S3Path :: r.2)
      | .notFound =>
        let r := streamFiles env cap fs st
        (r.1, f.S3Path :: r.2)
      | .fetchFailed =>
        let r := streamFiles env cap fs st
        (r.1, f.S3Path :: r.2)

/-- The whole streaming phase (lines 149-196): the loop over all
descriptors followed by `zw.Close()`, which writes the central
directory. -/
def streamArchive (env : Env) (cap : Option Nat) (files : List redisFile) (st : WState) :
    WState × List String :=
  let r := streamFiles env cap files st
  (sinkWrite cap r.1 .centralDirectory, r.2)

/-- A parsed query string: key-value pairs in order.  `qry[k]` in Go is
the list of values for `k`; the handler only reads the first value, so
the model keeps, per key, the first pair. -/
structure Request where
  query : List (String × String)
  deriving DecidableEq

/-- The first value of query parameter `k`, `none` when absent. -/
def getParam (req : Request) (k : String) : Option String :=
  (req.query.find? (fun p => decide (p.1 = k))).map (fun p => p.2)

/-- The `as`-parameter handling (lines 129-138): an absent parameter
means the default name, a present one is sanitized, and an empty result
falls back to the default. -/
def outputName (asParam : Option String) : String :=
  let a :=
    match asParam with
    | none => "download.zip"
    | some v => sanitize v
  if a = "" then "download.zip" else a

/-- Everything observable about one handled request: the status, the
headers added before the body, the final sink state, and the keys and
paths requested from the two stores. -/
structure HandlerOutput where
  status : Nat
  headers : List (String × String)
  sink : WState
  redisCalls : List String
  fetchCalls : List String
  deriving DecidableEq

/-- The HTTP handler (`(srv *server) handler`, lines 114-199): an empty
query or a missing or empty `token` is a 400 with nothing else done; a
resolution failure is a 401 with no headers and no body; otherwise the
two archive headers are added and the manifest is streamed. -/
def handler (env : Env) (cap : Option Nat) (req : Request) : HandlerOutput :=
  if req.query = [] then ⟨400, [], initW, [], []⟩
  else
    match getParam req "token" with
    | none => ⟨400, [], initW, [], []⟩
    | some tok =>
      if tok = "" then ⟨400, [], initW, [], []⟩
      else
        let asName := outputName (getParam req "as")
        match getRedisFiles env tok with
        | .error _ => ⟨401, [], initW, ["zip:" ++ tok], []⟩
        | .ok files =>
          let r := streamArchive env cap files initW
          ⟨200,
            [("Content-Disposition", "attachment; filename=\"" ++ asName ++ "\""),
             ("Content-Type", "application/zip")],
            r.1, ["zip:" ++ tok], r.2⟩

/-- The chunks one descriptor contributes on a healthy sink. -/
def emit (env : Env) (f : redisFile) : List Chunk :=
  if f.S3Path = "" then []
  else
    match env.fetch f.S3Path with
    | .ok d => [.entryHeader (zipPathOf f), .entryData d]
    | .notFound => []
    | .fetchFailed => []

/-- The chunks a descriptor list contributes on a healthy sink. -/
def emitAll (env : Env) : List redisFile → List Chunk
  | [] => []
  | f :: fs => emit env f ++ emitAll env fs

/-- The storage paths the loop passes to `GetReader`, in order. -/
def pathsOf : List redisFile → List String
  | [] => []
  | f :: fs => (if f.S3Path = "" then [] else [f.S3Path]) ++ pathsOf fs

/-- A descriptor that yields an archive entry: a non-empty storage path
whose fetch succeeds. -/
def fetchable (env : Env) (f : redisFile) : Bool :=
  if f.S3Path = "" then false
  else
    match env.fetch f.S3Path with
    | .ok _ => true
    | .notFound => false
    | .fetchFailed => false

/-- The names of the entry headers among a chunk list, in order. -/
def entryNames : List Chunk → List String
  | [] => []
  | .entryHeader n :: cs => n :: entryNames cs
  | .entryData _ :: cs => entryNames cs
  | .centralDirectory :: cs => entryNames cs

/-- An environment in which every lookup and every fetch succeeds, used
to evaluate the model at concrete inputs. -/
def envOk : Env := ⟨fun _ => .bytes [], fun _ => .ok [], fun _ => .ok [55]⟩

/-- An environment whose object store knows only some paths, used to
evaluate the model at concrete inputs: the path named bad is absent,
the path named worse fails, and every other fetch succeeds. -/
def envMix : Env :=
  ⟨fun _ => .bytes [], fun _ => .ok [],
   fun p => if p = "bad" then .notFound else if p = "worse" then .fetchFailed else .ok [9]⟩

/-- An environment whose redis GET always returns the nil reply (the
token is unknown to the lookup store). -/
def envNil : Env := ⟨fun _ => .nilReply, fun _ => .ok [], fun _ => .ok [55]⟩

/-- The bytes of the JSON literal null.  Go's `json.Unmarshal` of the
literal null into a slice succeeds and leaves the slice nil, which the
handler ranges over as an empty manifest. -/
def jsonNull : List Nat := [110, 117, 108, 108]

/-- An environment whose redis GET returns the JSON literal null and
whose decoder unmarshals it to the nil descriptor list, mirroring Go's
`json.Unmarshal` special case for null. -/
def envNull : Env :=
  ⟨fun _ => .bytes jsonNull,
   fun b => if b = jsonNull then .ok [] else .error "unexpected payload",
   fun _ => .ok [55]⟩

/-- A character of the sanitizer's output is never an excluded
character. -/
theorem sanitize_no_excluded (s : String) (c : Char) (hc : c ∈ (sanitize s).data) :
    c ∉ excludedChars := by
  have hd : (sanitize s).data = s.data.filter (fun c => decide (c ∉ excludedChars)) := rfl
  rw [hd] at hc
  simpa using (List.mem_filter.mp hc).2

/-- Appending a non-empty string yields a non-empty string. -/
theorem string_append_ne_empty (a b : String) (h : b ≠ "") : a ++ b ≠ "" := by
  intro hab
  apply h
  have hd : a.data ++ b.data = ("" : String).data := by
    rw [← String.data_append, hab]
  have hb : b.data = [] := (List.append_eq_nil.mp hd).2
  cases b with
  | mk bd =>
    cases hb
    rfl

/-- The entry file name falls back to a fixed non-empty placeholder. -/
theorem entryFileName_ne_empty (f : redisFile) : entryFileName f ≠ "" := by
  unfold entryFileName
  by_cases h : sanitize f.FileName = ""
  · rw [if_pos h]
    decide
  · rw [if_neg h]
    exact h

/-- No character of the entry file name is an excluded character. -/
theorem entryFileName_no_excluded (f : redisFile) (c : Char) (hc : c ∈ (entryFileName f).data) :
    c ∉ excludedChars := by
  unfold entryFileName at hc
  by_cases h : sanitize f.FileName = ""
  · rw [if_pos h] at hc
    have hm : c ∈ ['f', 'i', 'l', 'e'] := hc
    simp at hm
    rcases hm with h1 | h1 | h1 | h1 <;> subst h1 <;> decide
  · rw [if_neg h] at hc
    exact sanitize_no_excluded _ _ hc

/-- C4: the sanitizer's output contains no excluded character, is an
in-order sublist of the input (no characters added, order preserved),
and equals the input with exactly the excluded characters dropped (no
other transformation). -/
theorem C4_sanitizer_spec (s : String) :
    (∀ c, c ∈ (sanitize s).data → c ∉ excludedChars) ∧
    (sanitize s).data.Sublist s.data ∧
    (sanitize s).data = s.data.filter (fun c => decide (c ∉ excludedChars)) :=
  ⟨fun c hc => sanitize_no_excluded s c hc, List.filter_sublist s.data, rfl⟩

/-- C4 witness: the sanitizer property at a concrete string, together
with its evaluation. -/
theorem C4_sanitizer_spec_witness :
    ((∀ c, c ∈ (sanitize "a#b/c?.txt").data → c ∉ excludedChars) ∧
     (sanitize "a#b/c?.txt").data.Sublist "a#b/c?.txt".data ∧
     (sanitize "a#b/c?.txt").data =
       "a#b/c?.txt".data.filter (fun c => decide (c ∉ excludedChars))) ∧
    sanitize "a#b/c?.txt" = "abc.txt" :=
  ⟨C4_sanitizer_spec "a#b/c?.txt", by decide⟩

/-- C1 counterexample: a stored folder value containing the excluded
character hash flows into the in-archive path unsanitized, and the
descriptor does produce an archive entry when its fetch succeeds — so
the entry path contains an excluded character besides the joining
separator. -/
theorem C1_counterexample :
    '#' ∈ excludedChars ∧
    '#' ≠ '/' ∧
    zipPathOf ⟨"p", "x", "a#b"⟩ = "a#b/x" ∧
    '#' ∈ (zipPathOf ⟨"p", "x", "a#b"⟩).data ∧
    entryNames (streamArchive envOk none [⟨"p", "x", "a#b"⟩] initW).1.sent = ["a#b/x"] := by
  decide

/-- C1 (amended): the in-archive path is never empty and decomposes as
the folder portion followed by the sanitized file name; the file-name
segment is non-empty (falling back to the placeholder) and contains no
excluded character, but the folder portion is the stored folder value
used verbatim, without sanitization. -/
theorem C1_entry_path (f : redisFile) :
    zipPathOf f ≠ "" ∧
    zipPathOf f = folderPart f.Folder ++ entryFileName f ∧
    entryFileName f ≠ "" ∧
    (∀ c, c ∈ (entryFileName f).data → c ∉ excludedChars) :=
  ⟨string_append_ne_empty _ _ (entryFileName_ne_empty f), rfl,
   entryFileName_ne_empty f, fun c hc => entryFileName_no_excluded f c hc⟩

/-- On a healthy sink the loop appends exactly the chunks of each
descriptor in order, never fails, and fetches exactly the non-empty
storage paths in order. -/
theorem streamFiles_none (env : Env) (files : List redisFile) :
    ∀ st : WState, st.failed = false →
      streamFiles env none files st =
        (⟨st.sent ++ emitAll env files, false⟩, pathsOf files) := by
  induction files with
  | nil =>
    intro st h
    cases st with
    | mk sent failed =>
      cases h
      simp [streamFiles, emitAll, pathsOf]
  | cons f fs ih =>
    intro st h
    by_cases hp : f.S3Path = ""
    · simp [streamFiles, hp, emitAll, emit, pathsOf, ih st h]
    · cases hf : env.fetch f.S3Path with
      | ok d =>
        have h1 : sinkWrite none st (.entryHeader (zipPathOf f)) =
            ⟨st.sent ++ [.entryHeader (zipPathOf f)], false⟩ := by
          simp [sinkWrite, h]
        have h2 : sinkWrite none ⟨st.sent ++ [Chunk.entryHeader (zipPathOf f)], false⟩
            (.entryData d) =
            ⟨st.sent ++ [.entryHeader (zipPathOf f), .entryData d], false⟩ := by
          simp [sinkWrite]
        simp only [streamFiles, if_neg hp, hf, h1, h2]
        rw [ih _ rfl]
        simp [emitAll, emit, hp, hf, pathsOf]
      | notFound =>
        simp only [streamFiles, if_neg hp, hf]
        rw [ih st h]
        simp [emitAll, emit, hp, hf, pathsOf]
      | fetchFailed =>
        simp only [streamFiles, if_neg hp, hf]
        rw [ih st h]
        simp [emitAll, emit, hp, hf, pathsOf]

/-- On a healthy sink the whole streaming phase emits the entry chunks
in manifest order followed by the central directory. -/
theorem streamArchive_none (env : Env) (files : List redisFile) :
    streamArchive env none files initW =
      (⟨emitAll env files ++ [Chunk.centralDirectory], false⟩, pathsOf files) := by
  unfold streamArchive
  rw [streamFiles_none env files initW rfl]
  simp [sinkWrite, initW]

/-- Entry names distribute over chunk concatenation. -/
theorem entryNames_append (a b : List Chunk) :
    entryNames (a ++ b) = entryNames a ++ entryNames b := by
  induction a with
  | nil => rfl
  | cons c cs ih => cases c <;> simp [entryNames, ih]

/-- The entry names contributed by a descriptor list are the in-archive
paths of its fetchable descriptors, in order. -/
theorem entryNames_emitAll (env : Env) (files : List redisFile) :
    entryNames (emitAll env files) = (files.filter (fetchable env)).map zipPathOf := by
  induction files with
  | nil => rfl
  | cons f fs ih =>
    simp only [emitAll, entryNames_append, ih, List.filter_cons]
    by_cases hp : f.S3Path = ""
    · simp [emit, fetchable, hp, entryNames]
    · cases hf : env.fetch f.S3Path <;>
        simp [emit, fetchable, hp, hf, entryNames]

/-- The chunk contribution distributes over descriptor concatenation. -/
theorem emitAll_append (env : Env) (xs ys : List redisFile) :
    emitAll env (xs ++ ys) = emitAll env xs ++ emitAll env ys := by
  induction xs with
  | nil => rfl
  | cons f fs ih => simp [emitAll, ih]

/-- The fetched paths distribute over descriptor concatenation. -/
theorem pathsOf_append (xs ys : List redisFile) :
    pathsOf (xs ++ ys) = pathsOf xs ++ pathsOf ys := by
  induction xs with
  | nil => rfl
  | cons f fs ih => simp [pathsOf, ih]

/-- C3: on a healthy sink, a manifest yields exactly the entries of its
fetchable descriptors (non-empty storage path, successful fetch), in
the same relative order, and hence exactly K entries when exactly K
descriptors are fetchable. -/
theorem C3_archive_entries (env : Env) (files : List redisFile) :
    entryNames (streamArchive env none files initW).1.sent =
      (files.filter (fetchable env)).map zipPathOf ∧
    (entryNames (streamArchive env none files initW).1.sent).length =
      (files.filter (fetchable env)).length := by
  have h : entryNames (streamArchive env none files initW).1.sent =
      (files.filter (fetchable env)).map zipPathOf := by
    rw [streamArchive_none]
    simp [entryNames_append, entryNames, entryNames_emitAll]
  exact ⟨h, by rw [h, List.length_map]⟩

/-- C3 witness: the entry list at a concrete manifest of four
descriptors of which two are fetchable. -/
theorem C3_archive_entries_witness :
    (entryNames (streamArchive envMix none
        [⟨"g1", "a.txt", ""⟩, ⟨"bad", "b.txt", ""⟩, ⟨"", "c.txt", ""⟩, ⟨"g2", "d.txt", "docs"⟩]
        initW).1.sent =
      ([⟨"g1", "a.txt", ""⟩, ⟨"bad", "b.txt", ""⟩, ⟨"", "c.txt", ""⟩,
        ⟨"g2", "d.txt", "docs"⟩].filter (fetchable envMix)).map zipPathOf ∧
    (entryNames (streamArchive envMix none
        [⟨"g1", "a.txt", ""⟩, ⟨"bad", "b.txt", ""⟩, ⟨"", "c.txt", ""⟩, ⟨"g2", "d.txt", "docs"⟩]
        initW).1.sent).length =
      ([⟨"g1", "a.txt", ""⟩, ⟨"bad", "b.txt", ""⟩, ⟨"", "c.txt", ""⟩,
        ⟨"g2", "d.txt", "docs"⟩].filter (fetchable envMix)).length) ∧
    entryNames (streamArchive envMix none
        [⟨"g1", "a.txt", ""⟩, ⟨"bad", "b.txt", ""⟩, ⟨"", "c.txt", ""⟩, ⟨"g2", "d.txt", "docs"⟩]
        initW).1.sent = ["a.txt", "docs/d.txt"] :=
  ⟨C3_archive_entries envMix _, by decide⟩

/-- C5: a descriptor whose fetch returns not-found or a failure yields
no archive entry (the archive equals the one without it), and every
later descriptor is still processed: the paths fetched after it are
exactly those of the remaining manifest. -/
theorem C5_failed_fetch (env : Env) (pre post : List redisFile) (f : redisFile)
    (hp : f.S3Path ≠ "")
    (hf : env.fetch f.S3Path = .notFound ∨ env.fetch f.S3Path = .fetchFailed) :
    entryNames (streamArchive env none (pre ++ f :: post) initW).1.sent =
      entryNames (streamArchive env none (pre ++ post) initW).1.sent ∧
    (streamArchive env none (pre ++ f :: post) initW).2 =
      pathsOf pre ++ f.S3Path :: pathsOf post := by
  have hemit : emit env f = [] := by
    unfold emit
    rw [if_neg hp]
    rcases hf with hf | hf <;> rw [hf]
  constructor
  · rw [streamArchive_none, streamArchive_none]
    have hcons : emitAll env (f :: post) = emitAll env post := by
      simp [emitAll, hemit]
    simp [entryNames_append, emitAll_append, hcons]
  · rw [streamArchive_none]
    rw [show pre ++ f :: post = pre ++ [f] ++ post by simp]
    rw [pathsOf_append, pathsOf_append]
    simp [pathsOf, hp]

/-- C5 witness: a concrete manifest whose middle descriptor is absent
from the object store; the archive skips it and the last descriptor is
still fetched. -/
theorem C5_failed_fetch_witness :
    (⟨"bad", "b.txt", ""⟩ : redisFile).S3Path ≠ "" ∧
    (envMix.fetch "bad" = .notFound ∨ envMix.fetch "bad" = .fetchFailed) ∧
    (entryNames (streamArchive envMix none
        ([⟨"g1", "a.txt", ""⟩] ++ ⟨"bad", "b.txt", ""⟩ :: [⟨"g2", "d.txt", ""⟩]) initW).1.sent =
      entryNames (streamArchive envMix none
        ([⟨"g1", "a.txt", ""⟩] ++ [⟨"g2", "d.txt", ""⟩]) initW).1.sent ∧
    (streamArchive envMix none
        ([⟨"g1", "a.txt", ""⟩] ++ ⟨"bad", "b.txt", ""⟩ :: [⟨"g2", "d.txt", ""⟩]) initW).2 =
      pathsOf [⟨"g1", "a.txt", ""⟩] ++ "bad" :: pathsOf [⟨"g2", "d.txt", ""⟩]) :=
  ⟨by decide, Or.inl (by decide),
   C5_failed_fetch envMix [⟨"g1", "a.txt", ""⟩] [⟨"g2", "d.txt", ""⟩] ⟨"bad", "b.txt", ""⟩
     (by decide) (Or.inl (by decide))⟩

/-- C1 witness: the amended invariant at a concrete descriptor. -/
theorem C1_entry_path_witness :
    zipPathOf ⟨"p", "a?b", "docs"⟩ ≠ "" ∧
    zipPathOf ⟨"p", "a?b", "docs"⟩ = folderPart "docs" ++ entryFileName ⟨"p", "a?b", "docs"⟩ ∧
    entryFileName ⟨"p", "a?b", "docs"⟩ ≠ "" ∧
    (∀ c, c ∈ (entryFileName ⟨"p", "a?b", "docs"⟩).data → c ∉ excludedChars) :=
  C1_entry_path ⟨"p", "a?b", "docs"⟩

/-- When validation passes and resolution succeeds, the handler commits
exactly the two archive headers, naming the derived output file name,
and streams the manifest to the sink. -/
theorem handler_streaming (env : Env) (cap : Option Nat) (req : Request) (t : String)
    (files : List redisFile)
    (hq : req.query ≠ []) (ht : getParam req "token" = some t) (ht0 : t ≠ "")
    (hres : getRedisFiles env t = .ok files) :
    handler env cap req =
      ⟨200,
        [("Content-Disposition",
           "attachment; filename=\"" ++ outputName (getParam req "as") ++ "\""),
         ("Content-Type", "application/zip")],
        (streamArchive env cap files initW).1, ["zip:" ++ t],
        (streamArchive env cap files initW).2⟩ := by
  simp only [handler, if_neg hq, ht, if_neg ht0, hres]

/-- C2: for a request that reaches the streaming phase, the
Content-Disposition header names the sanitized `as` value when the
parameter is present and sanitizes to a non-empty string, and the fixed
default otherwise (parameter absent, or value sanitizing to empty). -/
theorem C2_download_name (env : Env) (cap : Option Nat) (req : Request) (t : String)
    (files : List redisFile)
    (hq : req.query ≠ []) (ht : getParam req "token" = some t) (ht0 : t ≠ "")
    (hres : getRedisFiles env t = .ok files) :
    (∀ a, getParam req "as" = some a → sanitize a ≠ "" →
      (handler env cap req).headers =
        [("Content-Disposition", "attachment; filename=\"" ++ sanitize a ++ "\""),
         ("Content-Type", "application/zip")]) ∧
    ((getParam req "as" = none ∨ (∃ a, getParam req "as" = some a ∧ sanitize a = "")) →
      (handler env cap req).headers =
        [("Content-Disposition", "attachment; filename=\"download.zip\""),
         ("Content-Type", "application/zip")]) := by
  have hh := handler_streaming env cap req t files hq ht ht0 hres
  constructor
  · intro a ha hs
    rw [hh]
    simp [outputName, ha, hs]
  · intro hcase
    rw [hh]
    rcases hcase with hnone | ⟨a, ha, hs⟩
    · simp [outputName, hnone]
    · simp [outputName, ha, hs]

/-- C2 witness: a present `as` parameter whose sanitization is
non-empty names the archive after it, at a concrete request. -/
theorem C2_download_name_witness :
    (handler envOk none ⟨[("token", "t"), ("as", "a?b")]⟩).headers =
      [("Content-Disposition", "attachment; filename=\"ab\""),
       ("Content-Type", "application/zip")] := by
  have h := (C2_download_name envOk none ⟨[("token", "t"), ("as", "a?b")]⟩ "t" []
    (by decide) (by decide) (by decide) rfl).1 "a?b" (by decide) (by decide)
  exact h.trans (by decide)

/-- C6: a request with a non-empty token whose resolution fails — the
store transport erred, the key was absent, the reply failed the byte
assertion, or the payload did not decode — is terminated with the one
authorization status 401, no headers and no body bytes, and the outcome
is the same constant whatever the cause; the handler returns normally,
never fatally. -/
theorem C6_resolution_error_uniform (env : Env) (cap : Option Nat) (req : Request) (t : String)
    (hq : req.query ≠ []) (ht : getParam req "token" = some t) (ht0 : t ≠ "")
    (hcause :
      env.redisGet ("zip:" ++ t) = .err ∨
      env.redisGet ("zip:" ++ t) = .nilReply ∨
      (∃ b e, env.redisGet ("zip:" ++ t) = .bytes b ∧ env.unmarshal b = .error e)) :
    handler env cap req = ⟨401, [], initW, ["zip:" ++ t], []⟩ := by
  have herr : ∃ e, getRedisFiles env t = .error e := by
    unfold getRedisFiles
    rcases hcause with h | h | ⟨b, e, hb, he⟩
    · rw [h]
      exact ⟨_, rfl⟩
    · rw [h]
      exact ⟨_, rfl⟩
    · simp only [hb, he]
      exact ⟨_, rfl⟩
  obtain ⟨e, he⟩ := herr
  simp only [handler, if_neg hq, ht, if_neg ht0, he]

/-- C6 witness: an unknown token (nil redis reply) at a concrete
request. -/
theorem C6_resolution_error_uniform_witness :
    handler envNil none ⟨[("token", "t")]⟩ = ⟨401, [], initW, ["zip:t"], []⟩ := by
  have h := C6_resolution_error_uniform envNil none ⟨[("token", "t")]⟩ "t"
    (by decide) (by decide) (by decide) (Or.inr (Or.inl rfl))
  exact h.trans (by decide)

/-- C7: an empty query string, an absent `token`, or an empty `token`
value yields the client-error status 400 with no headers, no body
bytes, and no call to the lookup store. -/
theorem C7_bad_input (env : Env) (cap : Option Nat) (req : Request)
    (h : req.query = [] ∨ getParam req "token" = none ∨ getParam req "token" = some "") :
    handler env cap req = ⟨400, [], initW, [], []⟩ := by
  by_cases hq : req.query = []
  · simp [handler, hq]
  · rcases h with h | h | h
    · exact absurd h hq
    · simp [handler, if_neg hq, h]
    · simp [handler, if_neg hq, h]

/-- C7 witness: a request with parameters but no token, at a concrete
environment whose store would answer if asked. -/
theorem C7_bad_input_witness :
    handler envOk none ⟨[("as", "x.zip")]⟩ = ⟨400, [], initW, [], []⟩ :=
  C7_bad_input envOk none ⟨[("as", "x.zip")]⟩ (Or.inr (Or.inl rfl))

/-- C9: two descriptors with the same non-empty folder value share the
same folder prefix, a separator is inserted exactly when the stored
value does not already end with one, and the file-name segments contain
no separator, so exactly the joining separator stands between the
folder value and the file name. -/
theorem C9_shared_folder (f1 f2 : redisFile) (d : String)
    (h1 : f1.Folder = d) (h2 : f2.Folder = d) (hd : d ≠ "") :
    zipPathOf f1 = folderPart d ++ entryFileName f1 ∧
    zipPathOf f2 = folderPart d ++ entryFileName f2 ∧
    (endsWithSlash d = true → folderPart d = d) ∧
    (endsWithSlash d = false → folderPart d = d ++ "/") ∧
    '/' ∉ (entryFileName f1).data ∧
    '/' ∉ (entryFileName f2).data := by
  refine ⟨by rw [zipPathOf, h1], by rw [zipPathOf, h2], ?_, ?_, ?_, ?_⟩
  · intro h
    simp [folderPart, hd, h]
  · intro h
    simp [folderPart, hd, h]
  · exact fun hc => entryFileName_no_excluded f1 '/' hc (by decide)
  · exact fun hc => entryFileName_no_excluded f2 '/' hc (by decide)

/-- C9 witness: two concrete descriptors sharing the folder docs, one
file name needing sanitization; both paths get the single inserted
separator. -/
theorem C9_shared_folder_witness :
    (zipPathOf ⟨"p", "a.txt", "docs"⟩ = folderPart "docs" ++ entryFileName ⟨"p", "a.txt", "docs"⟩ ∧
     zipPathOf ⟨"q", "b?.txt", "docs"⟩ =
       folderPart "docs" ++ entryFileName ⟨"q", "b?.txt", "docs"⟩ ∧
     (endsWithSlash "docs" = true → folderPart "docs" = "docs") ∧
     (endsWithSlash "docs" = false → folderPart "docs" = "docs" ++ "/") ∧
     '/' ∉ (entryFileName ⟨"p", "a.txt", "docs"⟩).data ∧
     '/' ∉ (entryFileName ⟨"q", "b?.txt", "docs"⟩).data) ∧
    zipPathOf ⟨"p", "a.txt", "docs"⟩ = "docs/a.txt" ∧
    zipPathOf ⟨"q", "b?.txt", "docs"⟩ = "docs/b.txt" :=
  ⟨C9_shared_folder ⟨"p", "a.txt", "docs"⟩ ⟨"q", "b?.txt", "docs"⟩ "docs" rfl rfl (by decide),
   by decide, by decide⟩

/-- C10: a present redis value that unmarshals to the nil descriptor
list (as Go's decoder does for the JSON literal null) resolves to the
empty manifest rather than an error, and the request completes as a 200
whose sink received exactly the finalizing central directory: a valid
archive with zero entries. -/
theorem C10_null_manifest (env : Env) (req : Request) (t : String) (b : List Nat)
    (hq : req.query ≠ []) (ht : getParam req "token" = some t) (ht0 : t ≠ "")
    (hr : env.redisGet ("zip:" ++ t) = .bytes b)
    (hu : env.unmarshal b = .ok []) :
    getRedisFiles env t = .ok [] ∧
    handler env none req =
      ⟨200,
        [("Content-Disposition",
           "attachment; filename=\"" ++ outputName (getParam req "as") ++ "\""),
         ("Content-Type", "application/zip")],
        ⟨[Chunk.centralDirectory], false⟩, ["zip:" ++ t], []⟩ := by
  have hres : getRedisFiles env t = .ok [] := by
    unfold getRedisFiles
    simp only [hr, hu]
  refine ⟨hres, ?_⟩
  rw [handler_streaming env none req t [] hq ht ht0 hres]
  rfl

/-- C10 witness: the JSON literal null stored under the token, at a
concrete request. -/
theorem C10_null_manifest_witness :
    getRedisFiles envNull "t" = .ok [] ∧
    handler envNull none ⟨[("token", "t")]⟩ =
      ⟨200,
        [("Content-Disposition",
           "attachment; filename=\"" ++ outputName (getParam ⟨[("token", "t")]⟩ "as") ++ "\""),
         ("Content-Type", "application/zip")],
        ⟨[Chunk.centralDirectory], false⟩, ["zip:" ++ "t"], []⟩ :=
  C10_null_manifest envNull ⟨[("token", "t")]⟩ "t" jsonNull
    (by decide) (by decide) (by decide) rfl rfl

/-- The loop's fetch calls depend only on the manifest, never on the
sink's state: a broken sink does not stop the remaining descriptors
from being fetched. -/
theorem streamFiles_paths (env : Env) (cap : Option Nat) :
    ∀ (files : List redisFile) (st : WState), (streamFiles env cap files st).2 = pathsOf files := by
  intro files
  induction files with
  | nil => intro st; rfl
  | cons f fs ih =>
    intro st
    by_cases hp : f.S3Path = ""
    · simp [streamFiles, hp, pathsOf, ih]
    · cases hf : env.fetch f.S3Path <;> simp [streamFiles, hp, hf, pathsOf, ih]

/-- A latched writer forwards nothing. -/
theorem sinkWrite_failed (cap : Option Nat) (st : WState) (c : Chunk)
    (h : st.failed = true) : sinkWrite cap st c = st := by
  simp [sinkWrite, h]

/-- A write of a non-central chunk never puts the central directory on
the sink. -/
theorem sinkWrite_no_central (cap : Option Nat) (st : WState) (c : Chunk)
    (hc : c ≠ Chunk.centralDirectory) (h : Chunk.centralDirectory ∉ st.sent) :
    Chunk.centralDirectory ∉ (sinkWrite cap st c).sent := by
  unfold sinkWrite
  cases hst : st.failed with
  | true => simpa using h
  | false =>
    cases cap with
    | none =>
      simp only [hst, Bool.false_eq_true, if_false]
      intro hm
      rcases List.mem_append.mp hm with hx | hx
      · exact h hx
      · exact hc (List.mem_singleton.mp hx).symm
    | some k =>
      simp only [hst, Bool.false_eq_true, if_false]
      by_cases hlt : st.sent.length < k
      · simp only [if_pos hlt]
        intro hm
        rcases List.mem_append.mp hm with hx | hx
        · exact h hx
        · exact hc (List.mem_singleton.mp hx).symm
      · simpa [if_neg hlt] using h

/-- The per-descriptor loop writes only entry chunks, never the central
directory. -/
theorem streamFiles_no_central (env : Env) (cap : Option Nat) (files : List redisFile) :
    ∀ st : WState, Chunk.centralDirectory ∉ st.sent →
      Chunk.centralDirectory ∉ (streamFiles env cap files st).1.sent := by
  induction files with
  | nil => intro st h; exact h
  | cons f fs ih =>
    intro st h
    by_cases hp : f.S3Path = ""
    · simpa [streamFiles, hp] using ih st h
    · cases hf : env.fetch f.S3Path with
      | ok d =>
        simp only [streamFiles, if_neg hp, hf]
        exact ih _ (sinkWrite_no_central _ _ _ (by simp) (sinkWrite_no_central _ _ _ (by simp) h))
      | notFound => simpa [streamFiles, hp, hf] using ih st h
      | fetchFailed => simpa [streamFiles, hp, hf] using ih st h

/-- A capped sink never holds more chunks than its capacity. -/
theorem sinkWrite_length (k : Nat) (st : WState) (c : Chunk)
    (h : st.sent.length ≤ k) : (sinkWrite (some k) st c).sent.length ≤ k := by
  unfold sinkWrite
  cases hst : st.failed with
  | true => simpa using h
  | false =>
    simp only [hst, Bool.false_eq_true, if_false]
    by_cases hlt : st.sent.length < k
    · simp only [if_pos hlt, List.length_append, List.length_singleton]
      exact hlt
    · simpa [if_neg hlt] using h

/-- The loop never pushes the sink past its capacity. -/
theorem streamFiles_length (env : Env) (k : Nat) (files : List redisFile) :
    ∀ st : WState, st.sent.length ≤ k →
      (streamFiles env (some k) files st).1.sent.length ≤ k := by
  induction files with
  | nil => intro st h; exact h
  | cons f fs ih =>
    intro st h
    by_cases hp : f.S3Path = ""
    · simpa [streamFiles, hp] using ih st h
    · cases hf : env.fetch f.S3Path with
      | ok d =>
        simp only [streamFiles, if_neg hp, hf]
        exact ih _ (sinkWrite_length _ _ _ (sinkWrite_length _ _ _ h))
      | notFound => simpa [streamFiles, hp, hf] using ih st h
      | fetchFailed => simpa [streamFiles, hp, hf] using ih st h

/-- C8 counterexample: with a sink that is broken from the first write,
the loop still fetches the second descriptor after the failure — the
remaining descriptors are processed, not abandoned. -/
theorem C8_counterexample :
    (streamArchive envOk (some 0) [⟨"p1", "a", ""⟩, ⟨"p2", "b", ""⟩] initW).1.failed = true ∧
    (streamArchive envOk (some 0) [⟨"p1", "a", ""⟩, ⟨"p2", "b", ""⟩] initW).2 = ["p1", "p2"] := by
  decide

/-- C8 (amended): the handler never inspects sink write errors — after
a failure it keeps fetching every remaining descriptor and still runs
the finalizer — but the writer's latched error state means that when
the sink has failed, the central directory never reaches the sink and
no chunk beyond the sink's capacity does. -/
theorem C8_sink_failure (env : Env) (k : Nat) (files : List redisFile)
    (hfail : (streamArchive env (some k) files initW).1.failed = true) :
    Chunk.centralDirectory ∉ (streamArchive env (some k) files initW).1.sent ∧
    (streamArchive env (some k) files initW).1.sent.length ≤ k ∧
    (streamArchive env (some k) files initW).2 = pathsOf files := by
  have hnc : Chunk.centralDirectory ∉ (streamFiles env (some k) files initW).1.sent :=
    streamFiles_no_central env (some k) files initW (by simp [initW])
  have hlen : (streamFiles env (some k) files initW).1.sent.length ≤ k :=
    streamFiles_length env k files initW (by simp [initW])
  have hfail' :
      (sinkWrite (some k) (streamFiles env (some k) files initW).1 .centralDirectory).failed =
        true := hfail
  refine ⟨?_, sinkWrite_length _ _ _ hlen, streamFiles_paths env (some k) files initW⟩
  show Chunk.centralDirectory ∉
    (sinkWrite (some k) (streamFiles env (some k) files initW).1 .centralDirectory).sent
  generalize hg : (streamFiles env (some k) files initW).1 = st at hnc hfail'
  unfold sinkWrite at hfail' ⊢
  by_cases hb : st.failed = true
  · simpa [hb] using hnc
  · simp only [hb] at hfail' ⊢
    by_cases hlt : st.sent.length < k
    · simp [hlt] at hfail'
    · simpa [hlt] using hnc

/-- C8 witness: a sink accepting one chunk; the failure is latched, the
central directory never reaches the sink, and both descriptors are
still fetched. -/
theorem C8_sink_failure_witness :
    (streamArchive envOk (some 1) [⟨"q1", "a", ""⟩, ⟨"q2", "b", ""⟩] initW).1.failed = true ∧
    (Chunk.centralDirectory ∉
        (streamArchive envOk (some 1) [⟨"q1", "a", ""⟩, ⟨"q2", "b", ""⟩] initW).1.sent ∧
      (streamArchive envOk (some 1) [⟨"q1", "a", ""⟩, ⟨"q2", "b", ""⟩] initW).1.sent.length ≤ 1 ∧
      (streamArchive envOk (some 1) [⟨"q1", "a", ""⟩, ⟨"q2", "b", ""⟩] initW).2 =
        pathsOf [⟨"q1", "a", ""⟩, ⟨"q2", "b", ""⟩]) :=
  ⟨by decide, C8_sink_failure envOk 1 [⟨"q1", "a", ""⟩, ⟨"q2", "b", ""⟩] (by decide)⟩

end Zipper
